import Mathlib

/-!
Verification development for the Online Retail CRUD service
(`src/scr/index.js`): a shallow embedding of the Express route handlers,
the validation middleware, the centralized database-error handler, and the
PostgreSQL behaviours the handlers rely on (ILIKE pattern matching,
integer-literal casts, ORDER BY / LIMIT / OFFSET evaluation), together
with theorems settling the specification claims.

Machine integers are modelled as `Int`/`Nat`, SQL numerics as `ℚ`.
The `products` table is a `List Product`; each handler is a pure function
from its inputs, the table, and an optional injected store fault to a
response, the resulting table, and a trace of connection events.
-/

namespace OnlineRetail

/-! ## JavaScript string primitives used by the handlers -/

/-- JavaScript whitespace recognised by `Number(...)` / `parseInt` trimming
(ASCII subset; the handlers only ever receive ASCII path/query strings). -/
def jsWs (c : Char) : Bool :=
  c == ' ' || c == '\t' || c == '\n' || c == '\r' || c == '\x0b' || c == '\x0c'

/-- Trim JavaScript whitespace from both ends of a character list. -/
def trimJs (cs : List Char) : List Char :=
  ((cs.dropWhile jsWs).reverse.dropWhile jsWs).reverse

def hexDigit (c : Char) : Bool :=
  c.isDigit || ('a' ≤ c && c ≤ 'f') || ('A' ≤ c && c ≤ 'F')

/-- Value of a list of decimal digits (most significant first). -/
def decValue (cs : List Char) : Nat :=
  cs.foldl (fun n c => n * 10 + (c.toNat - 48)) 0

def hexDigitVal (c : Char) : Nat :=
  if c.isDigit then c.toNat - 48
  else if 'a' ≤ c && c ≤ 'f' then c.toNat - 87
  else c.toNat - 55

def hexValue (cs : List Char) : Nat :=
  cs.foldl (fun n c => n * 16 + hexDigitVal c) 0

/-- Exponent tail of a JS decimal literal: empty, or `e`/`E`, an optional
sign, and at least one digit. -/
def expTail (cs : List Char) : Bool :=
  match cs with
  | [] => true
  | c :: rest =>
    (c == 'e' || c == 'E') &&
      (let r := match rest with
        | s :: r2 => if s == '+' || s == '-' then r2 else rest
        | [] => rest
       !r.isEmpty && r.all Char.isDigit)

/-- JS `StrUnsignedDecimalLiteral`: `digits [. digits] [exp]` or `. digits [exp]`. -/
def decLit (cs : List Char) : Bool :=
  let ds := cs.takeWhile Char.isDigit
  let rest := cs.dropWhile Char.isDigit
  match rest with
  | [] => !ds.isEmpty
  | '.' :: r2 =>
    let fs := r2.takeWhile Char.isDigit
    let r3 := r2.dropWhile Char.isDigit
    (!ds.isEmpty || !fs.isEmpty) && expTail r3
  | _ => !ds.isEmpty && expTail rest

/-- Strip one leading `+`/`-` sign. -/
def stripSign (cs : List Char) : List Char :=
  match cs with
  | c :: r => if c = '+' ∨ c = '-' then r else c :: r
  | [] => []

/-- JS non-decimal integer literal: `0x`/`0o`/`0b` digits (no sign allowed). -/
def nonDecInt (cs : List Char) : Bool :=
  match cs with
  | '0' :: c :: rest =>
    if c == 'x' || c == 'X' then !rest.isEmpty && rest.all hexDigit
    else if c == 'o' || c == 'O' then
      !rest.isEmpty && rest.all (fun d => '0' ≤ d && d ≤ '7')
    else if c == 'b' || c == 'B' then
      !rest.isEmpty && rest.all (fun d => d == '0' || d == '1')
    else false
  | _ => false

/-- `Number(s)` is not NaN, i.e. JS `isNaN(s)` is `false`: the trimmed
string is empty, a non-decimal integer literal, or a signed decimal
literal / `Infinity`.  This is the `!isNaN(id)` test of the `:id` route. -/
def jsNumericStr (s : String) : Bool :=
  let t := trimJs s.data
  t.isEmpty || nonDecInt t ||
    (let b := stripSign t
     b == "Infinity".data || decLit b)

/-- JS `parseInt(s)` (radix auto-detection: `0x` prefix means hex,
otherwise decimal); `none` models the NaN result. -/
def jsParseInt (s : String) : Option Int :=
  let t := s.data.dropWhile jsWs
  let sgn : Int := if t.head? = some '-' then -1 else 1
  let b := if t.head? = some '-' ∨ t.head? = some '+' then t.tail else t
  if b.head? = some '0' ∧ (b.tail.head? = some 'x' ∨ b.tail.head? = some 'X') then
    let hs := (b.tail.tail).takeWhile hexDigit
    if hs.isEmpty then none else some (sgn * (hexValue hs : Nat))
  else
    let ds := b.takeWhile Char.isDigit
    if ds.isEmpty then none else some (sgn * (decValue ds : Nat))

/-- ASCII upper-casing of one character, as JS `String.prototype.toUpperCase`
performs on the ASCII strings the service handles. -/
def upCh (c : Char) : Char :=
  if 97 ≤ c.toNat ∧ c.toNat ≤ 122 then Char.ofNat (c.toNat - 32) else c

/-- ASCII lower-casing of one character (JS `toLowerCase`, PG `lower()`). -/
def lowCh (c : Char) : Char :=
  if 65 ≤ c.toNat ∧ c.toNat ≤ 90 then Char.ofNat (c.toNat + 32) else c

def jsToUpper (s : String) : String := ⟨s.data.map upCh⟩

def jsToLower (s : String) : String := ⟨s.data.map lowCh⟩

/-! ## PostgreSQL behaviours the handlers rely on -/

/-- PostgreSQL cast of a text parameter to `integer`: optional surrounding
whitespace, an optional sign, then at least one digit and nothing else.
`none` models the `22P02` invalid-text-representation error. -/
def pgIntParse (s : String) : Option Int :=
  let t := trimJs s.data
  let sgn : Int := if t.head? = some '-' then -1 else 1
  let b := if t.head? = some '-' ∨ t.head? = some '+' then t.tail else t
  if !b.isEmpty && b.all Char.isDigit then some (sgn * (decValue b : Nat)) else none

/-- Try `f` on every suffix of `s` (including `s` itself and `[]`). -/
def tryTails (f : List Char → Bool) : List Char → Bool
  | [] => f []
  | c :: s => f (c :: s) || tryTails f s

/-- SQL `LIKE` pattern matching over characters: `%` matches any sequence,
`_` any single character, backslash escapes the next pattern character.
A dangling escape matches nothing (PostgreSQL raises an error there; the
service never produces such a pattern from a well-formed search string). -/
def likeMatch : List Char → List Char → Bool
  | [], s => s.isEmpty
  | p :: ps, s =>
    if p == '%' then tryTails (likeMatch ps) s
    else if p == '_' then
      match s with
      | [] => false
      | _ :: s2 => likeMatch ps s2
    else if p == '\x5c' then
      match ps with
      | [] => false
      | q :: ps2 =>
        match s with
        | [] => false
        | c :: s2 => c == q && likeMatch ps2 s2
    else
      match s with
      | [] => false
      | c :: s2 => c == p && likeMatch ps s2

/-- PostgreSQL `ILIKE`: case-fold both pattern and subject, then `LIKE`. -/
def ilike (pat subj : String) : Bool :=
  likeMatch (pat.data.map lowCh) (subj.data.map lowCh)

/-! ## Data model -/

/-- A row of the `products` table.  `unit_price` is a nullable SQL numeric;
`updated_at` is an abstract timestamp tick. -/
structure Product where
  product_id : Int
  stock_code : String
  description : String
  unit_price : Option ℚ
  stock_quantity : Int
  reorder_level : Int
  is_active : Bool
  updated_at : Nat
deriving DecidableEq

/-- A PostgreSQL error surfaced to a handler: SQLSTATE code plus message. -/
structure PgErr where
  code : String
  message : String
deriving DecidableEq

/-- The `22P02` invalid-text-representation error raised when a non-integer
string (or a serialized NaN) is cast to `integer`. -/
def pgCastErr : PgErr := ⟨"22P02", "invalid input syntax for type integer"⟩

/-- The `2201W`/`2201X` error raised for a negative LIMIT/OFFSET. -/
def pgNegLimitErr : PgErr := ⟨"2201W", "LIMIT must not be negative"⟩

/-- The `23505` unique-constraint error raised for a duplicate `stock_code`. -/
def pgDupErr : PgErr := ⟨"23505", "duplicate key value violates unique constraint"⟩

/-- Projection returned by the low-stock query
(`SELECT product_id, stock_code, description, stock_quantity, reorder_level`). -/
structure LowRow where
  product_id : Int
  stock_code : String
  description : String
  stock_quantity : Int
  reorder_level : Int
deriving DecidableEq

/-- Aggregates of `GET /api/products/analytics/summary`. -/
structure Summary where
  total_products : Nat
  active_products : Nat
  avg_price : Option ℚ
  total_stock : Int
deriving DecidableEq

/-- Payload of a `data` field. -/
inductive RespData where
  | rows (l : List Product)
  | row (p : Product)
  | low (l : List LowRow)
  | summary (s : Summary)
deriving DecidableEq

/-- An HTTP/JSON response: status code plus the JSON body's fields, each
`none` when the handler's object literal omits the key.  `statusText` and
`timestamp` model the health endpoint's extra `status`/`timestamp` keys. -/
structure Response where
  status : Nat
  success : Option Bool := none
  data : Option RespData := none
  error : Option String := none
  message : Option String := none
  statusText : Option String := none
  timestamp : Option String := none
deriving DecidableEq

/-- Connection-pool events emitted by a handler. -/
inductive Ev where
  | acquire
  | release
  | query
deriving DecidableEq

/-- Outcome of running a handler: response, resulting table state, and the
trace of pool events. -/
structure HResult where
  resp : Response
  table : List Product
  evs : List Ev
deriving DecidableEq

/-- The event trace of every handler body that reaches the store:
`pool.connect()`, one query, and the `finally` release. -/
def evAQR : List Ev := [Ev.acquire, Ev.query, Ev.release]

/-! ## Validation middleware and error handler -/

/-- JS truthiness of a string-or-absent request-body field. -/
def truthyS (o : Option String) : Bool :=
  match o with
  | some s => !(s == "")
  | none => false

/-- A create/update request body, with the field types of the documented
schema (`stock_code`/`description` strings, `unit_price` a JSON number);
`none` models an absent field. -/
structure ProductBody where
  stock_code : Option String
  description : Option String
  unit_price : Option ℚ
deriving DecidableEq

/-- The `validateProduct` middleware: rejects (with the 400 response it
sends) or passes.  On a rational `unit_price`, JS `isNaN` is false and
`unit_price <= 0` is the numeric comparison. -/
def validateProduct (b : ProductBody) : Option Response :=
  if !truthyS b.stock_code || !truthyS b.description then
    some { status := 400,
           error := some "Missing required fields: stock_code and description" }
  else if (match b.unit_price with | some q => decide (q ≤ 0) | none => false) then
    some { status := 400, error := some "unit_price must be a positive number" }
  else none

/-- The centralized `handleDatabaseError` switch on the SQLSTATE code. -/
def handleDatabaseError (e : PgErr) : Response :=
  if e.code == "23505" then { status := 409, error := some "Duplicate entry detected" }
  else if e.code == "23503" then { status := 400, error := some "Invalid foreign key reference" }
  else if e.code == "23514" then { status := 400, error := some "Check constraint violation" }
  else { status := 500, error := some "Internal server error" }

/-! ## GET /api/products: list with pagination, search, sorting -/

/-- The allow-list `validSort` of the list route. -/
def validSort : List String := ["product_id", "stock_code", "description", "unit_price"]

/-- `validSort.includes(sort_by) ? sort_by : 'stock_code'`. -/
def sortColumnOf (sort_by : String) : String :=
  if validSort.contains sort_by then sort_by else "stock_code"

/-- `sort_order.toUpperCase() === 'DESC' ? 'DESC' : 'ASC'`. -/
def orderOf (sort_order : String) : String :=
  if jsToUpper sort_order == "DESC" then "DESC" else "ASC"

/-- Lexicographic order on character lists, modelling text collation. -/
def charListLe : List Char → List Char → Bool
  | [], _ => true
  | _ :: _, [] => false
  | a :: as, b :: bs => a.toNat < b.toNat || (a == b && charListLe as bs)

/-- `ORDER BY column ASC` comparison between two rows; SQL NULL sorts last
ascending.  Any column name outside the allow-list cannot reach this point,
but the catch-all mirrors `stock_code` being the fallback column. -/
def colLeAsc (col : String) (a b : Product) : Bool :=
  if col == "product_id" then decide (a.product_id ≤ b.product_id)
  else if col == "description" then charListLe a.description.data b.description.data
  else if col == "unit_price" then
    match a.unit_price, b.unit_price with
    | none, o => o.isNone
    | some _, none => true
    | some x, some y => decide (x ≤ y)
  else charListLe a.stock_code.data b.stock_code.data

/-- Row comparison for `ORDER BY col ord` (DESC reverses the ASC order). -/
def rowLe (col ord : String) (a b : Product) : Bool :=
  if ord == "DESC" then colLeAsc col b a else colLeAsc col a b

def insertLe (le : Product → Product → Bool) (p : Product) :
    List Product → List Product
  | [] => [p]
  | q :: r => if le p q then p :: q :: r else q :: insertLe le p r

/-- Sort used to model the store's `ORDER BY` evaluation. -/
def sortByLe (le : Product → Product → Bool) : List Product → List Product
  | [] => []
  | p :: r => insertLe le p (sortByLe le r)

/-- The WHERE clause of the list route: no filter for an empty search,
otherwise `stock_code ILIKE '%s%' OR description ILIKE '%s%'` with the raw
search string interpolated into the pattern. -/
def filterRows (search : String) (table : List Product) : List Product :=
  if search == "" then table
  else
    table.filter (fun p =>
      ilike ("%" ++ search ++ "%") p.stock_code ||
        ilike ("%" ++ search ++ "%") p.description)

/-- Filtered and sorted result set of the list query, before LIMIT/OFFSET. -/
def listPipeline (search sort_by sort_order : String) (table : List Product) :
    List Product :=
  sortByLe (rowLe (sortColumnOf sort_by) (orderOf sort_order)) (filterRows search table)

/-- The `GET /api/products` handler.  Query parameters are `none` when
absent; `page` and `limit` are taken as integers (the JS arithmetic
`(page - 1) * limit` coerces the query strings numerically).  A `fault` is
an error the store raises in place of answering the query. -/
def listProducts (pageQ limitQ : Option Int) (searchQ sortByQ sortOrderQ : Option String)
    (table : List Product) (fault : Option PgErr) : HResult :=
  let page := pageQ.getD 1
  let limit := limitQ.getD 10
  let search := searchQ.getD ""
  let sort_by := sortByQ.getD "stock_code"
  let sort_order := sortOrderQ.getD "ASC"
  let offset := (page - 1) * limit
  match fault with
  | some e => ⟨handleDatabaseError e, table, evAQR⟩
  | none =>
    if limit < 0 ∨ offset < 0 then ⟨handleDatabaseError pgNegLimitErr, table, evAQR⟩
    else
      ⟨{ status := 200, success := some true,
         data := some (.rows (((listPipeline search sort_by sort_order table).drop
           offset.toNat).take limit.toNat)) },
        table, evAQR⟩

/-! ## GET /api/products/:id -/

/-- Which WHERE clause the `:id` route builds, and the parameter it binds:
`product_id = parseInt(id)` when `!isNaN(id)`, else `stock_code = id`.
`byProductId none` is a NaN parameter (serialized as the string `NaN`). -/
inductive LookupKey where
  | byProductId (n : Option Int)
  | byStockCode (s : String)
deriving DecidableEq

def lookupKeyOf (id : String) : LookupKey :=
  if jsNumericStr id then .byProductId (jsParseInt id) else .byStockCode id

/-- Store evaluation of the single-row lookup. -/
def runLookup (k : LookupKey) (table : List Product) : Except PgErr (List Product) :=
  match k with
  | .byProductId none => .error pgCastErr
  | .byProductId (some n) => .ok (table.filter (fun p => p.product_id == n))
  | .byStockCode s => .ok (table.filter (fun p => p.stock_code == s))

def notFoundResp : Response := { status := 404, error := some "Product not found" }

/-- The `GET /api/products/:id` handler. -/
def getProductById (id : String) (table : List Product) (fault : Option PgErr) :
    HResult :=
  let qres : Except PgErr (List Product) :=
    match fault with
    | some e => .error e
    | none => runLookup (lookupKeyOf id) table
  match qres with
  | .error e => ⟨handleDatabaseError e, table, evAQR⟩
  | .ok [] => ⟨notFoundResp, table, evAQR⟩
  | .ok (p :: _) =>
    ⟨{ status := 200, success := some true, data := some (.row p) }, table, evAQR⟩

/-! ## POST /api/products -/

/-- Serial id assignment for `INSERT ... RETURNING *`. -/
def nextProductId (table : List Product) : Int :=
  (table.map Product.product_id).foldr max 0 + 1

/-- Row created by the insert (column defaults for fields absent from the
statement). -/
def mkNewProduct (table : List Product) (b : ProductBody) : Product :=
  { product_id := nextProductId table
    stock_code := b.stock_code.getD ""
    description := b.description.getD ""
    unit_price := b.unit_price
    stock_quantity := 0
    reorder_level := 0
    is_active := true
    updated_at := 0 }

/-- The `POST /api/products` handler: `validateProduct` middleware first,
then the insert; a duplicate `stock_code` violates the unique constraint. -/
def createProduct (b : ProductBody) (table : List Product) (fault : Option PgErr) :
    HResult :=
  match validateProduct b with
  | some r => ⟨r, table, []⟩
  | none =>
    match fault with
    | some e => ⟨handleDatabaseError e, table, evAQR⟩
    | none =>
      if table.any (fun p => p.stock_code == b.stock_code.getD "") then
        ⟨handleDatabaseError pgDupErr, table, evAQR⟩
      else
        let p := mkNewProduct table b
        ⟨{ status := 201, success := some true, data := some (.row p) },
          table ++ [p], evAQR⟩

/-! ## PUT /api/products/:id -/

/-- Row after `UPDATE ... SET ..., updated_at=CURRENT_TIMESTAMP`
(the clock is modelled as one tick past the previous value). -/
def updatedRow (b : ProductBody) (p : Product) : Product :=
  { p with
    stock_code := b.stock_code.getD ""
    description := b.description.getD ""
    unit_price := b.unit_price
    updated_at := p.updated_at + 1 }

/-- The `PUT /api/products/:id` handler: validation middleware, then
`UPDATE ... WHERE product_id=$4` with the raw path string as the
parameter (cast by the store). -/
def updateProduct (id : String) (b : ProductBody) (table : List Product)
    (fault : Option PgErr) : HResult :=
  match validateProduct b with
  | some r => ⟨r, table, []⟩
  | none =>
    match fault with
    | some e => ⟨handleDatabaseError e, table, evAQR⟩
    | none =>
      match pgIntParse id with
      | none => ⟨handleDatabaseError pgCastErr, table, evAQR⟩
      | some n =>
        if table.any (fun p => !(p.product_id == n) && p.stock_code == b.stock_code.getD "") then
          ⟨handleDatabaseError pgDupErr, table, evAQR⟩
        else
          match table.filter (fun p => p.product_id == n) with
          | [] => ⟨notFoundResp, table, evAQR⟩
          | p :: _ =>
            ⟨{ status := 200, success := some true, data := some (.row (updatedRow b p)) },
              table.map (fun q => if q.product_id == n then updatedRow b q else q), evAQR⟩

/-! ## DELETE /api/products/:id -/

/-- The `DELETE /api/products/:id` handler: `DELETE ... WHERE product_id=$1`
with the raw path string as the parameter. -/
def deleteProduct (id : String) (table : List Product) (fault : Option PgErr) :
    HResult :=
  match fault with
  | some e => ⟨handleDatabaseError e, table, evAQR⟩
  | none =>
    match pgIntParse id with
    | none => ⟨handleDatabaseError pgCastErr, table, evAQR⟩
    | some n =>
      match table.filter (fun p => p.product_id == n) with
      | [] => ⟨notFoundResp, table, evAQR⟩
      | p :: _ =>
        ⟨{ status := 200, success := some true, message := some "Product deleted",
           data := some (.row p) },
          table.filter (fun q => !(q.product_id == n)), evAQR⟩

/-! ## Analytics, low stock, health -/

/-- Rows and order of the low-stock query
(`WHERE stock_quantity <= reorder_level ORDER BY stock_quantity ASC`). -/
def lowStockRows (table : List Product) : List LowRow :=
  ((sortByLe (fun a b => decide (a.stock_quantity ≤ b.stock_quantity))
      (table.filter (fun p => p.stock_quantity ≤ p.reorder_level))).map
    (fun p => ⟨p.product_id, p.stock_code, p.description, p.stock_quantity,
      p.reorder_level⟩))

/-- The `GET /api/products/low-stock` handler function (as written; whether
a request ever reaches it is a dispatch question). -/
def lowStockProducts (table : List Product) (fault : Option PgErr) : HResult :=
  match fault with
  | some e => ⟨handleDatabaseError e, table, evAQR⟩
  | none =>
    ⟨{ status := 200, success := some true, data := some (.low (lowStockRows table)) },
      table, evAQR⟩

/-- Aggregates of the summary query (empty-table averages are NULL). -/
def summaryOf (table : List Product) : Summary :=
  let prices := table.filterMap Product.unit_price
  { total_products := table.length
    active_products := (table.filter (fun p => p.is_active)).length
    avg_price :=
      if prices.isEmpty then none
      else some (prices.foldr (· + ·) 0 / (prices.length : ℚ))
    total_stock := (table.map Product.stock_quantity).foldr (· + ·) 0 }

/-- The `GET /api/products/analytics/summary` handler function. -/
def analyticsSummary (table : List Product) (fault : Option PgErr) : HResult :=
  match fault with
  | some e => ⟨handleDatabaseError e, table, evAQR⟩
  | none =>
    ⟨{ status := 200, success := some true, data := some (.summary (summaryOf table)) },
      table, evAQR⟩

/-- The `GET /api/health` handler: `pool.query` (acquire/release handled
inside the pool); on failure it answers 500 with the raw `error.message`. -/
def healthCheck (fault : Option PgErr) : Response × List Ev :=
  match fault with
  | some e =>
    ({ status := 500, success := some false, statusText := some "unhealthy",
       error := some e.message }, evAQR)
  | none =>
    ({ status := 200, success := some true, statusText := some "healthy",
       timestamp := some "now" }, evAQR)

/-! ## Express route registration and dispatch -/

inductive RouteId where
  | listProducts
  | getById
  | createProduct
  | updateProduct
  | deleteProduct
  | analyticsSummary
  | lowStock
  | health
deriving DecidableEq

/-- One segment of a route pattern: a literal, or a `:param` placeholder. -/
inductive Seg where
  | lit (s : String)
  | param
deriving DecidableEq

def matchSeg (sg : Seg) (t : String) : Bool :=
  match sg with
  | .lit s => s == t
  | .param => !(t == "")

def matchPath : List Seg → List String → Bool
  | [], [] => true
  | sg :: ps, t :: ts => matchSeg sg t && matchPath ps ts
  | _, _ => false

structure Route where
  method : String
  pat : List Seg
  rid : RouteId
deriving DecidableEq

/-- The app's routes, in source registration order. -/
def appRoutes : List Route :=
  [ ⟨"GET", [.lit "api", .lit "products"], .listProducts⟩,
    ⟨"GET", [.lit "api", .lit "products", .param], .getById⟩,
    ⟨"POST", [.lit "api", .lit "products"], .createProduct⟩,
    ⟨"PUT", [.lit "api", .lit "products", .param], .updateProduct⟩,
    ⟨"DELETE", [.lit "api", .lit "products", .param], .deleteProduct⟩,
    ⟨"GET", [.lit "api", .lit "products", .lit "analytics", .lit "summary"], .analyticsSummary⟩,
    ⟨"GET", [.lit "api", .lit "products", .lit "low-stock"], .lowStock⟩,
    ⟨"GET", [.lit "api", .lit "health"], .health⟩ ]

/-- Express dispatch: the first registered route whose method and pattern
match handles the request. -/
def dispatch (method : String) (path : List String) : Option RouteId :=
  (appRoutes.find? (fun r => r.method == method && matchPath r.pat path)).map (·.rid)

/-! ## Spec-side notions and sample data used by the theorems -/

/-- A string that parses fully as an integer (claim wording for the `:id`
lookup): an optional sign followed by one or more digits and nothing else. -/
def specIntegerString (s : String) : Bool :=
  !(stripSign s.data).isEmpty && (stripSign s.data).all Char.isDigit

/-- Characters with special meaning inside a LIKE pattern. -/
def isWild (c : Char) : Bool :=
  c == '%' || c == '_' || c == '\x5c'

/-- Case-insensitive literal substring containment (spec wording for the
search filter). -/
def substrCI (s t : String) : Prop :=
  (s.data.map lowCh) <:+: (t.data.map lowCh)

instance (s t : String) : Decidable (substrCI s t) :=
  inferInstanceAs (Decidable ((s.data.map lowCh) <:+: (t.data.map lowCh)))

/-- Shape of every product-route response body: a success body carrying
`success: true`, or an error body carrying only an `error` message and no
`success` field. -/
def crudShape (r : Response) : Prop :=
  (r.success = some true ∧ r.error = none ∧ r.statusText = none ∧ r.timestamp = none) ∨
    (r.success = none ∧ r.error.isSome = true ∧ r.data = none ∧ r.message = none ∧
      r.statusText = none ∧ r.timestamp = none)

/-- Per-handler accounting of pool events: as many releases as acquires,
and at most one acquisition. -/
def countAcqRel (l : List Ev) : Prop :=
  l.count Ev.acquire = l.count Ev.release ∧ l.count Ev.release ≤ 1

/-- A sample product row that is below its reorder level. -/
def sampleRow : Product := ⟨1, "A1", "Widget", none, 2, 5, true, 0⟩

/-- Sample row whose `stock_code` matches `a_b` as a LIKE pattern but does
not contain it literally. -/
def wildRow : Product := ⟨1, "aXb", "zz", none, 0, 0, true, 0⟩

/-! ## C1: the low-stock route -/

/-- C1: a GET request to /api/products/low-stock never reaches the
low-stock handler: Express dispatch in registration order sends it to the
earlier `/api/products/:id` route, which treats `low-stock` as a stock
code and answers 404 on a table whose only product is below its reorder
level — while the low-stock handler itself would return exactly that row. -/
theorem lowStock_route_shadowed :
    dispatch "GET" ["api", "products", "low-stock"] = some RouteId.getById ∧
    dispatch "GET" ["api", "products", "low-stock"] ≠ some RouteId.lowStock ∧
    (getProductById "low-stock" [sampleRow] none).resp = notFoundResp ∧
    (lowStockProducts [sampleRow] none).resp.data =
      some (.low [⟨1, "A1", "Widget", 2, 5⟩]) :=
  ⟨by decide, by decide, by decide, by decide⟩

/-! ## C5: store-error classification -/

theorem hdbe_other (e : PgErr) (h1 : e.code ≠ "23505") (h2 : e.code ≠ "23503")
    (h3 : e.code ≠ "23514") :
    handleDatabaseError e = { status := 500, error := some "Internal server error" } := by
  simp [handleDatabaseError, h1, h2, h3]

/-- C5 (amended): in every product route, a store error is classified
solely by its SQLSTATE code — 23505 to 409, 23503/23514 to 400, anything
else to 500 with a generic message — while the health endpoint answers any
store error with 500 and the raw error message. -/
theorem storeError_mapping (e : PgErr) :
    ((handleDatabaseError e).status = 409 ↔ e.code = "23505") ∧
    ((handleDatabaseError e).status = 400 ↔ (e.code = "23503" ∨ e.code = "23514")) ∧
    (e.code ≠ "23505" → e.code ≠ "23503" → e.code ≠ "23514" →
      handleDatabaseError e = { status := 500, error := some "Internal server error" }) ∧
    (∀ table, (listProducts none none none none none table (some e)).resp = handleDatabaseError e) ∧
    (∀ id table, (getProductById id table (some e)).resp = handleDatabaseError e) ∧
    (∀ b table, validateProduct b = none →
      (createProduct b table (some e)).resp = handleDatabaseError e) ∧
    (∀ id b table, validateProduct b = none →
      (updateProduct id b table (some e)).resp = handleDatabaseError e) ∧
    (∀ id table, (deleteProduct id table (some e)).resp = handleDatabaseError e) ∧
    (∀ table, (lowStockProducts table (some e)).resp = handleDatabaseError e) ∧
    (∀ table, (analyticsSummary table (some e)).resp = handleDatabaseError e) ∧
    (healthCheck (some e)).1.status = 500 ∧
    (healthCheck (some e)).1.error = some e.message := by
  refine ⟨?_, ?_, hdbe_other e, fun table => rfl, fun id table => rfl, ?_, ?_,
    fun id table => rfl, fun table => rfl, fun table => rfl, rfl, rfl⟩
  · unfold handleDatabaseError
    split_ifs with h1 h2 h3 <;> simp_all
  · unfold handleDatabaseError
    split_ifs with h1 h2 h3 <;> simp_all
  · intro b table h
    simp [createProduct, h]
  · intro id b table h
    simp [updateProduct, h]

/-- C5 counterexample: the health endpoint answers a unique-violation store
error (SQLSTATE 23505) with HTTP 500 and the raw error message in the
body, not with 409 and not with a generic message. -/
theorem healthCheck_ignores_code :
    (healthCheck (some ⟨"23505", "duplicate key value"⟩)).1.status = 500 ∧
    (healthCheck (some ⟨"23505", "duplicate key value"⟩)).1.error =
      some "duplicate key value" ∧
    (healthCheck (some ⟨"23505", "duplicate key value"⟩)).1.status ≠ 409 :=
  ⟨rfl, rfl, by decide⟩

/-- C5 witness: the mapping theorem applied to an unknown SQLSTATE. -/
theorem storeError_mapping_witness :
    (⟨"XX000", "boom"⟩ : PgErr).code ≠ "23505" ∧
    handleDatabaseError ⟨"XX000", "boom"⟩ =
      { status := 500, error := some "Internal server error" } ∧
    (deleteProduct "1" [] (some ⟨"XX000", "boom"⟩)).resp = handleDatabaseError ⟨"XX000", "boom"⟩ :=
  ⟨by decide,
    (storeError_mapping ⟨"XX000", "boom"⟩).2.2.1 (by decide) (by decide) (by decide),
    (storeError_mapping ⟨"XX000", "boom"⟩).2.2.2.2.2.2.2.1 "1" []⟩

/-! ## C8: pool-connection scoping -/

theorem evs_listProducts (pq lq : Option Int) (s sb so : Option String)
    (table : List Product) (f : Option PgErr) :
    (listProducts pq lq s sb so table f).evs = evAQR := by
  unfold listProducts
  cases f with
  | some e => rfl
  | none =>
    dsimp only
    split <;> rfl

theorem evs_getProductById (id : String) (table : List Product) (f : Option PgErr) :
    (getProductById id table f).evs = evAQR := by
  unfold getProductById
  cases f with
  | some e => rfl
  | none =>
    dsimp only
    split <;> rfl

theorem evs_createProduct (b : ProductBody) (table : List Product) (f : Option PgErr) :
    (createProduct b table f).evs = [] ∨ (createProduct b table f).evs = evAQR := by
  unfold createProduct
  cases validateProduct b with
  | some r => left; rfl
  | none =>
    cases f with
    | some e => right; rfl
    | none =>
      dsimp only
      split <;> (right; rfl)

theorem evs_updateProduct (id : String) (b : ProductBody) (table : List Product)
    (f : Option PgErr) :
    (updateProduct id b table f).evs = [] ∨ (updateProduct id b table f).evs = evAQR := by
  unfold updateProduct
  cases validateProduct b with
  | some r => left; rfl
  | none =>
    cases f with
    | some e => right; rfl
    | none =>
      cases pgIntParse id with
      | none => right; rfl
      | some n =>
        dsimp only
        split
        · right; rfl
        · split <;> (right; rfl)

theorem evs_deleteProduct (id : String) (table : List Product) (f : Option PgErr) :
    (deleteProduct id table f).evs = evAQR := by
  unfold deleteProduct
  cases f with
  | some e => rfl
  | none =>
    cases pgIntParse id with
    | none => rfl
    | some n =>
      dsimp only
      split <;> rfl

/-- C8: on every execution path of every handler — success, not-found, or a
store error — the pool events are balanced: a connection is released as
many times as it is acquired, and acquired at most once (the validation
short-circuit acquires nothing; every path that acquires releases once). -/
theorem connection_scoped :
    (∀ pq lq s sb so table f, countAcqRel ((listProducts pq lq s sb so table f).evs)) ∧
    (∀ id table f, countAcqRel ((getProductById id table f).evs)) ∧
    (∀ b table f, countAcqRel ((createProduct b table f).evs)) ∧
    (∀ id b table f, countAcqRel ((updateProduct id b table f).evs)) ∧
    (∀ id table f, countAcqRel ((deleteProduct id table f).evs)) ∧
    (∀ table f, countAcqRel ((lowStockProducts table f).evs)) ∧
    (∀ table f, countAcqRel ((analyticsSummary table f).evs)) ∧
    (∀ f, countAcqRel (healthCheck f).2) := by
  refine ⟨?_, ?_, ?_, ?_, ?_, ?_, ?_, ?_⟩
  · intro pq lq s sb so table f
    rw [evs_listProducts]
    exact ⟨rfl, by decide⟩
  · intro id table f
    rw [evs_getProductById]
    exact ⟨rfl, by decide⟩
  · intro b table f
    rcases evs_createProduct b table f with h | h <;> rw [h] <;> exact ⟨rfl, by decide⟩
  · intro id b table f
    rcases evs_updateProduct id b table f with h | h <;> rw [h] <;> exact ⟨rfl, by decide⟩
  · intro id table f
    rw [evs_deleteProduct]
    exact ⟨rfl, by decide⟩
  · intro table f
    cases f <;> exact ⟨rfl, Nat.le.refl⟩
  · intro table f
    cases f <;> exact ⟨rfl, Nat.le.refl⟩
  · intro f
    cases f <;> exact ⟨rfl, Nat.le.refl⟩

/-! ## C9: response envelopes -/

theorem crudShape_hdbe (e : PgErr) : crudShape (handleDatabaseError e) := by
  unfold handleDatabaseError crudShape
  split_ifs <;> (right; exact ⟨rfl, rfl, rfl, rfl, rfl, rfl⟩)

theorem crudShape_notFound : crudShape notFoundResp :=
  Or.inr ⟨rfl, rfl, rfl, rfl, rfl, rfl⟩

theorem crudShape_validate (b : ProductBody) (r : Response)
    (h : validateProduct b = some r) : crudShape r := by
  unfold validateProduct at h
  split_ifs at h
  · cases h
    exact Or.inr ⟨rfl, rfl, rfl, rfl, rfl, rfl⟩
  · cases h
    exact Or.inr ⟨rfl, rfl, rfl, rfl, rfl, rfl⟩

/-- C9 (amended): every response of the product routes is either a success
body carrying `success: true` (with optional `data`/`message`) or an error
body carrying only `error` and no `success` field; the health endpoint
always carries a `success` boolean together with its extra `status` (and
on success `timestamp`) fields. -/
theorem response_envelope :
    (∀ pq lq s sb so table f, crudShape ((listProducts pq lq s sb so table f).resp)) ∧
    (∀ id table f, crudShape ((getProductById id table f).resp)) ∧
    (∀ b table f, crudShape ((createProduct b table f).resp)) ∧
    (∀ id b table f, crudShape ((updateProduct id b table f).resp)) ∧
    (∀ id table f, crudShape ((deleteProduct id table f).resp)) ∧
    (∀ table f, crudShape ((lowStockProducts table f).resp)) ∧
    (∀ table f, crudShape ((analyticsSummary table f).resp)) ∧
    (∀ f, (healthCheck f).1.success.isSome = true ∧
      (healthCheck f).1.statusText.isSome = true) := by
  refine ⟨?_, ?_, ?_, ?_, ?_, ?_, ?_, ?_⟩
  · intro pq lq s sb so table f
    unfold listProducts
    cases f with
    | some e => exact crudShape_hdbe e
    | none =>
      dsimp only
      split
      · exact crudShape_hdbe _
      · exact Or.inl ⟨rfl, rfl, rfl, rfl⟩
  · intro id table f
    unfold getProductById
    cases f with
    | some e => exact crudShape_hdbe e
    | none =>
      dsimp only
      split
      · exact crudShape_hdbe _
      · exact crudShape_notFound
      · exact Or.inl ⟨rfl, rfl, rfl, rfl⟩
  · intro b table f
    unfold createProduct
    cases hv : validateProduct b with
    | some r => exact crudShape_validate b r hv
    | none =>
      cases f with
      | some e => exact crudShape_hdbe e
      | none =>
        dsimp only
        split
        · exact crudShape_hdbe _
        · exact Or.inl ⟨rfl, rfl, rfl, rfl⟩
  · intro id b table f
    unfold updateProduct
    cases hv : validateProduct b with
    | some r => exact crudShape_validate b r hv
    | none =>
      cases f with
      | some e => exact crudShape_hdbe e
      | none =>
        cases pgIntParse id with
        | none => exact crudShape_hdbe _
        | some n =>
          dsimp only
          split
          · exact crudShape_hdbe _
          · split
            · exact crudShape_notFound
            · exact Or.inl ⟨rfl, rfl, rfl, rfl⟩
  · intro id table f
    unfold deleteProduct
    cases f with
    | some e => exact crudShape_hdbe e
    | none =>
      cases pgIntParse id with
      | none => exact crudShape_hdbe _
      | some n =>
        dsimp only
        split
        · exact crudShape_notFound
        · exact Or.inl ⟨rfl, rfl, rfl, rfl⟩
  · intro table f
    cases f with
    | some e => exact crudShape_hdbe e
    | none => exact Or.inl ⟨rfl, rfl, rfl, rfl⟩
  · intro table f
    cases f with
    | some e => exact crudShape_hdbe e
    | none => exact Or.inl ⟨rfl, rfl, rfl, rfl⟩
  · intro f
    cases f with
    | some e => exact ⟨rfl, rfl⟩
    | none => exact ⟨rfl, rfl⟩

/-- C9 counterexample: the 404 response of the delete route is a bare
`error` object with no `success` field at all. -/
theorem missing_success_field :
    (deleteProduct "1" [] none).resp.status = 404 ∧
    (deleteProduct "1" [] none).resp.success = none :=
  ⟨by decide, by decide⟩

/-! ## C10: raw `:id` strings on PUT and DELETE -/

theorem hdbe_cast :
    handleDatabaseError pgCastErr = { status := 500, error := some "Internal server error" } := by
  decide

/-- C10: a PUT or DELETE whose `:id` does not parse as an integer passes
the raw string to the store, whose cast error lands in the default branch
of `handleDatabaseError`: HTTP 500 with the generic message (not 400 or
404), and the table is unchanged. -/
theorem raw_id_cast_maps_500 (id : String) (b : ProductBody) (table : List Product)
    (h : pgIntParse id = none) :
    (deleteProduct id table none).resp.status = 500 ∧
    (deleteProduct id table none).resp.error = some "Internal server error" ∧
    (deleteProduct id table none).table = table ∧
    (validateProduct b = none →
      (updateProduct id b table none).resp.status = 500 ∧
      (updateProduct id b table none).resp.error = some "Internal server error" ∧
      (updateProduct id b table none).table = table) := by
  refine ⟨?_, ?_, ?_, ?_⟩
  · simp [deleteProduct, h, hdbe_cast]
  · simp [deleteProduct, h, hdbe_cast]
  · simp [deleteProduct, h]
  · intro hv
    refine ⟨?_, ?_, ?_⟩
    · simp [updateProduct, hv, h, hdbe_cast]
    · simp [updateProduct, hv, h, hdbe_cast]
    · simp [updateProduct, hv, h]

/-- C10 witness: `abc` is not an integer string; DELETE and PUT on it
answer 500. -/
theorem raw_id_cast_maps_500_witness :
    pgIntParse "abc" = none ∧
    validateProduct ⟨some "A", some "B", none⟩ = none ∧
    (deleteProduct "abc" [] none).resp.status = 500 ∧
    (updateProduct "abc" ⟨some "A", some "B", none⟩ [] none).resp.status = 500 :=
  ⟨by decide, by decide,
    (raw_id_cast_maps_500 "abc" ⟨some "A", some "B", none⟩ [] (by decide)).1,
    ((raw_id_cast_maps_500 "abc" ⟨some "A", some "B", none⟩ [] (by decide)).2.2.2
      (by decide)).1⟩

/-! ## C3: the validation gate -/

theorem truthyS_false_iff (o : Option String) : truthyS o = false ↔ o.getD "" = "" := by
  rcases o with _ | s <;> simp [truthyS]

theorem validate_isSome_iff (b : ProductBody) :
    (validateProduct b).isSome = true ↔
      (b.stock_code.getD "" = "" ∨ b.description.getD "" = "" ∨
        ∃ q, b.unit_price = some q ∧ ¬(0 < q)) := by
  unfold validateProduct
  split_ifs with h1 h2
  · simp only [Option.isSome_some, true_iff]
    rw [Bool.or_eq_true, Bool.not_eq_true', Bool.not_eq_true'] at h1
    rcases h1 with h | h
    · exact Or.inl ((truthyS_false_iff _).mp h)
    · exact Or.inr (Or.inl ((truthyS_false_iff _).mp h))
  · simp only [Option.isSome_some, true_iff]
    rcases hup : b.unit_price with _ | q
    · rw [hup] at h2
      exact absurd h2 (by simp)
    · rw [hup] at h2
      exact Or.inr (Or.inr ⟨q, rfl, not_lt.mpr (of_decide_eq_true h2)⟩)
  · simp only [Option.isSome_none, Bool.false_eq_true, false_iff]
    simp only [Bool.not_eq_true, Bool.or_eq_false_iff, Bool.not_eq_false'] at h1
    rintro (h | h | ⟨q, hq, hlt⟩)
    · rw [← truthyS_false_iff] at h
      simp [h1.1] at h
    · rw [← truthyS_false_iff] at h
      simp [h1.2] at h
    · rw [hq] at h2
      simp only [Bool.not_eq_true, decide_eq_false_iff_not, not_le] at h2
      exact hlt h2

theorem validate_some_status (b : ProductBody) (r : Response)
    (h : validateProduct b = some r) : r.status = 400 := by
  unfold validateProduct at h
  split_ifs at h
  · cases h
    rfl
  · cases h
    rfl

theorem evs_create_pass (b : ProductBody) (table : List Product)
    (h : validateProduct b = none) : (createProduct b table none).evs = evAQR := by
  unfold createProduct
  rw [h]
  dsimp only
  split <;> rfl

theorem evs_update_pass (id : String) (b : ProductBody) (table : List Product)
    (h : validateProduct b = none) : (updateProduct id b table none).evs = evAQR := by
  unfold updateProduct
  rw [h]
  dsimp only
  cases pgIntParse id with
  | none => rfl
  | some n =>
    dsimp only
    split
    · rfl
    · split <;> rfl

/-- C3: a create/update body is rejected exactly when `stock_code` or
`description` is empty or missing, or `unit_price` is present and not
positive; rejection is HTTP 400 before any store access (no pool event, no
table change), and every body that passes validation reaches the store. -/
theorem validation_gate (b : ProductBody) (table : List Product) :
    ((validateProduct b).isSome = true ↔
      (b.stock_code.getD "" = "" ∨ b.description.getD "" = "" ∨
        ∃ q, b.unit_price = some q ∧ ¬(0 < q))) ∧
    (∀ r, validateProduct b = some r → r.status = 400) ∧
    ((validateProduct b).isSome = true →
      (createProduct b table none).resp.status = 400 ∧
      (createProduct b table none).table = table ∧
      (createProduct b table none).evs = [] ∧
      ∀ id, (updateProduct id b table none).resp.status = 400 ∧
        (updateProduct id b table none).table = table ∧
        (updateProduct id b table none).evs = []) ∧
    (validateProduct b = none →
      Ev.query ∈ (createProduct b table none).evs ∧
      ∀ id, Ev.query ∈ (updateProduct id b table none).evs) := by
  refine ⟨validate_isSome_iff b, validate_some_status b, ?_, ?_⟩
  · intro h
    obtain ⟨r, hr⟩ := Option.isSome_iff_exists.mp h
    have h400 := validate_some_status b r hr
    refine ⟨?_, ?_, ?_, ?_⟩
    · simp [createProduct, hr, h400]
    · simp [createProduct, hr]
    · simp [createProduct, hr]
    · intro id
      refine ⟨?_, ?_, ?_⟩
      · simp [updateProduct, hr, h400]
      · simp [updateProduct, hr]
      · simp [updateProduct, hr]
  · intro h
    refine ⟨?_, ?_⟩
    · rw [evs_create_pass b table h]
      decide
    · intro id
      rw [evs_update_pass id b table h]
      decide

/-- C3 witness: an empty `stock_code` is rejected with no store access; a
well-formed body reaches the store. -/
theorem validation_gate_witness :
    (validateProduct ⟨some "", some "x", none⟩).isSome = true ∧
    (createProduct ⟨some "", some "x", none⟩ [] none).evs = [] ∧
    validateProduct ⟨some "A", some "B", some 5⟩ = none ∧
    Ev.query ∈ (createProduct ⟨some "A", some "B", some 5⟩ [] none).evs :=
  ⟨by decide,
    ((validation_gate ⟨some "", some "x", none⟩ []).2.2.1 (by decide)).2.2.1,
    by decide,
    ((validation_gate ⟨some "A", some "B", some 5⟩ []).2.2.2 (by decide)).1⟩

/-! ## C2: the `:id` lookup discriminator -/

theorem digit_ne {c d : Char} (h : c.isDigit = true) (hd : d.isDigit = false) : c ≠ d := by
  rintro rfl
  rw [h] at hd
  exact Bool.noConfusion hd

theorem digit_not_ws {c : Char} (h : c.isDigit = true) : jsWs c = false := by
  unfold jsWs
  rw [beq_eq_false_iff_ne.mpr (digit_ne h (by decide : (' ').isDigit = false)),
    beq_eq_false_iff_ne.mpr (digit_ne h (by decide : ('\t').isDigit = false)),
    beq_eq_false_iff_ne.mpr (digit_ne h (by decide : ('\n').isDigit = false)),
    beq_eq_false_iff_ne.mpr (digit_ne h (by decide : ('\r').isDigit = false)),
    beq_eq_false_iff_ne.mpr (digit_ne h (by decide : ('\x0b').isDigit = false)),
    beq_eq_false_iff_ne.mpr (digit_ne h (by decide : ('\x0c').isDigit = false))]
  rfl

theorem dropWhile_jsWs_digits {cs : List Char} (h : cs.all Char.isDigit = true) :
    cs.dropWhile jsWs = cs := by
  cases cs with
  | nil => rfl
  | cons c t =>
    rw [List.all_cons, Bool.and_eq_true] at h
    simp [List.dropWhile_cons, digit_not_ws h.1]

theorem trimJs_digits {cs : List Char} (h : cs.all Char.isDigit = true) :
    trimJs cs = cs := by
  unfold trimJs
  rw [dropWhile_jsWs_digits h, dropWhile_jsWs_digits (by rwa [List.all_reverse]),
    List.reverse_reverse]

theorem stripSign_digits {cs : List Char} (h2 : cs.all Char.isDigit = true) :
    stripSign cs = cs := by
  cases cs with
  | nil => rfl
  | cons c t =>
    rw [List.all_cons, Bool.and_eq_true] at h2
    unfold stripSign
    dsimp only
    rw [if_neg]
    rintro (rfl | rfl)
    · exact absurd h2.1 (by decide)
    · exact absurd h2.1 (by decide)

theorem decLit_digits {cs : List Char} (h1 : cs ≠ []) (h2 : cs.all Char.isDigit = true) :
    decLit cs = true := by
  have ht : cs.takeWhile Char.isDigit = cs :=
    List.takeWhile_eq_self_iff.mpr (fun x hx => List.all_eq_true.mp h2 x hx)
  have hd : cs.dropWhile Char.isDigit = [] :=
    List.dropWhile_eq_nil_iff.mpr (fun x hx => List.all_eq_true.mp h2 x hx)
  simp only [decLit, ht, hd]
  simp [h1]

theorem jsNumericStr_digits {s : String} (h1 : s.data ≠ []) (h2 : s.data.all Char.isDigit = true) :
    jsNumericStr s = true := by
  simp only [jsNumericStr, trimJs_digits h2, stripSign_digits h2, decLit_digits h1 h2]
  simp

theorem jsParseInt_digits {s : String} (h1 : s.data ≠ []) (h2 : s.data.all Char.isDigit = true) :
    jsParseInt s = some ((decValue s.data : Nat) : Int) := by
  obtain ⟨c, t, hct⟩ := List.exists_cons_of_ne_nil h1
  have hc : c.isDigit = true := by
    rw [hct, List.all_cons, Bool.and_eq_true] at h2
    exact h2.1
  have hhead : s.data.head? = some c := by rw [hct]; rfl
  have hminus : ¬(s.data.head? = some '-') := by
    rw [hhead]
    simp only [Option.some_inj]
    exact digit_ne hc (by decide)
  have hplus : ¬(s.data.head? = some '-' ∨ s.data.head? = some '+') := by
    rintro (h | h)
    · exact hminus h
    · rw [hhead] at h
      exact digit_ne hc (by decide) (Option.some_inj.mp h)
  have hhex : ¬(s.data.head? = some '0' ∧
      (s.data.tail.head? = some 'x' ∨ s.data.tail.head? = some 'X')) := by
    rintro ⟨-, hx | hx⟩ <;>
      · rw [hct] at hx h2
        rw [List.all_cons, Bool.and_eq_true] at h2
        cases t with
        | nil => exact Option.noConfusion hx
        | cons d t2 =>
          rw [List.all_cons, Bool.and_eq_true] at h2
          have hd := h2.2.1
          revert hx
          simp only [List.tail_cons, List.head?_cons, Option.some_inj]
          exact digit_ne hd (by decide)
  have ht : s.data.takeWhile Char.isDigit = s.data :=
    List.takeWhile_eq_self_iff.mpr (fun x hx => List.all_eq_true.mp h2 x hx)
  have hne : s.data.takeWhile Char.isDigit ≠ [] := by rw [ht]; exact h1
  simp only [jsParseInt, dropWhile_jsWs_digits h2, if_neg hminus, if_neg hplus,
    if_neg hhex, ht]
  simp [List.isEmpty_iff, h1]

/-- C2 counterexample: `12.5` does not parse fully as an integer, yet the
`:id` route looks it up by `product_id` (with `parseInt` truncating to 12),
not by `stock_code` as the claim requires. -/
theorem decimal_id_lookup :
    specIntegerString "12.5" = false ∧
    lookupKeyOf "12.5" = .byProductId (some 12) ∧
    lookupKeyOf "12.5" ≠ .byStockCode "12.5" :=
  ⟨by decide, by decide, by decide⟩

/-- C2 (amended): the `:id` route looks up by `product_id` exactly when
`isNaN(id)` is false, i.e. when the whole string coerces to a JS number
(decimal, exponent, hex, `Infinity`, ... forms included), binding
`parseInt(id)`; every non-coercible string is looked up as a `stock_code`.
Digit-only strings are looked up by `product_id` with their exact value. -/
theorem lookup_field_selection (id : String) :
    (jsNumericStr id = true → lookupKeyOf id = .byProductId (jsParseInt id)) ∧
    (jsNumericStr id = false → lookupKeyOf id = .byStockCode id) ∧
    (id.data ≠ [] → id.data.all Char.isDigit = true →
      lookupKeyOf id = .byProductId (some ((decValue id.data : Nat) : Int))) := by
  refine ⟨?_, ?_, ?_⟩
  · intro h
    unfold lookupKeyOf
    rw [if_pos h]
  · intro h
    unfold lookupKeyOf
    simp [h]
  · intro h1 h2
    unfold lookupKeyOf
    rw [if_pos (jsNumericStr_digits h1 h2), jsParseInt_digits h1 h2]

/-- C2 witness: the digit string `42` is looked up by `product_id` 42. -/
theorem lookup_field_selection_witness :
    "42".data ≠ [] ∧ "42".data.all Char.isDigit = true ∧
    lookupKeyOf "42" = .byProductId (some 42) :=
  ⟨by decide, by decide,
    ((lookup_field_selection "42").2.2 (by decide) (by decide)).trans (by decide)⟩

/-! ## C4: sort allow-list and order normalization -/

theorem toNat_ofNat_range {m : Nat} (h1 : 65 ≤ m) (h2 : m ≤ 122) :
    (Char.ofNat m).toNat = m := by
  interval_cases m <;> decide

theorem upCh_eq_iff (c U L : Char) (h1 : 65 ≤ U.toNat) (h2 : U.toNat ≤ 90)
    (h3 : L.toNat = U.toNat + 32) : upCh c = U ↔ (c = U ∨ c = L) := by
  unfold upCh
  split_ifs with h
  · constructor
    · intro he
      right
      have hv : (Char.ofNat (c.toNat - 32)).toNat = c.toNat - 32 :=
        toNat_ofNat_range (by omega) (by omega)
      have heq : c.toNat = L.toNat := by
        have h4 := congrArg Char.toNat he
        rw [hv] at h4
        omega
      calc c = Char.ofNat c.toNat := (Char.ofNat_toNat c).symm
        _ = Char.ofNat L.toNat := by rw [heq]
        _ = L := Char.ofNat_toNat L
    · rintro (rfl | rfl)
      · exact absurd h (by omega)
      · have heq : c.toNat - 32 = U.toNat := by omega
        rw [heq, Char.ofNat_toNat]
  · constructor
    · intro he
      exact Or.inl he
    · rintro (rfl | rfl)
      · rfl
      · exact absurd (⟨by omega, by omega⟩ : 97 ≤ c.toNat ∧ c.toNat ≤ 122) h

theorem lowCh_eq_iff (c U L : Char) (h1 : 65 ≤ U.toNat) (h2 : U.toNat ≤ 90)
    (h3 : L.toNat = U.toNat + 32) : lowCh c = L ↔ (c = U ∨ c = L) := by
  unfold lowCh
  split_ifs with h
  · constructor
    · intro he
      left
      have hv : (Char.ofNat (c.toNat + 32)).toNat = c.toNat + 32 :=
        toNat_ofNat_range (by omega) (by omega)
      have heq : c.toNat = U.toNat := by
        have h4 := congrArg Char.toNat he
        rw [hv] at h4
        omega
      calc c = Char.ofNat c.toNat := (Char.ofNat_toNat c).symm
        _ = Char.ofNat U.toNat := by rw [heq]
        _ = U := Char.ofNat_toNat U
    · rintro (rfl | rfl)
      · have heq : c.toNat + 32 = L.toNat := by omega
        rw [heq, Char.ofNat_toNat]
      · exact absurd h (by omega)
  · constructor
    · intro he
      exact Or.inr he
    · rintro (rfl | rfl)
      · exact absurd (⟨by omega, by omega⟩ : 65 ≤ c.toNat ∧ c.toNat ≤ 90) h
      · rfl

theorem mapUp_DESC (cs : List Char) :
    cs.map upCh = "DESC".data ↔ cs.map lowCh = "desc".data := by
  have hD : "DESC".data = ['D', 'E', 'S', 'C'] := rfl
  have hd : "desc".data = ['d', 'e', 's', 'c'] := rfl
  rw [hD, hd]
  rcases cs with _ | ⟨a, _ | ⟨b, _ | ⟨c, _ | ⟨d, _ | ⟨e, t⟩⟩⟩⟩⟩
  · simp
  · simp
  · simp
  · simp
  · simp only [List.map_cons, List.map_nil, List.cons.injEq, and_true]
    rw [upCh_eq_iff a 'D' 'd' (by decide) (by decide) (by decide),
      upCh_eq_iff b 'E' 'e' (by decide) (by decide) (by decide),
      upCh_eq_iff c 'S' 's' (by decide) (by decide) (by decide),
      upCh_eq_iff d 'C' 'c' (by decide) (by decide) (by decide),
      lowCh_eq_iff a 'D' 'd' (by decide) (by decide) (by decide),
      lowCh_eq_iff b 'E' 'e' (by decide) (by decide) (by decide),
      lowCh_eq_iff c 'S' 's' (by decide) (by decide) (by decide),
      lowCh_eq_iff d 'C' 'c' (by decide) (by decide) (by decide)]
  · simp

theorem orderOf_DESC_iff (so : String) : orderOf so = "DESC" ↔ jsToLower so = "desc" := by
  unfold orderOf
  split_ifs with h
  · rw [beq_iff_eq] at h
    constructor
    · intro hx
      have hdata : so.data.map upCh = "DESC".data := congrArg String.data h
      exact String.ext ((mapUp_DESC so.data).mp hdata)
    · intro hx
      rfl
  · rw [beq_iff_eq] at h
    constructor
    · intro habs
      exact absurd habs (by decide)
    · intro hlow
      exfalso
      apply h
      have hdata : so.data.map lowCh = "desc".data := congrArg String.data hlow
      exact String.ext ((mapUp_DESC so.data).mpr hdata)

/-- C4: the list route sorts by `sort_by` exactly when it is in the
allow-list {product_id, stock_code, description, unit_price} and falls
back to `stock_code` otherwise; the direction is DESC exactly when
`sort_order` equals `DESC` case-insensitively and ASC otherwise; no sort
parameter value makes the request fail. -/
theorem sort_allowlist (sb so : String) :
    (sb ∈ validSort → sortColumnOf sb = sb) ∧
    (sb ∉ validSort → sortColumnOf sb = "stock_code") ∧
    (orderOf so = "DESC" ↔ jsToLower so = "desc") ∧
    (orderOf so = "DESC" ∨ orderOf so = "ASC") ∧
    (∀ table sbQ soQ, (listProducts none none none sbQ soQ table none).resp.status = 200) := by
  refine ⟨?_, ?_, orderOf_DESC_iff so, ?_, ?_⟩
  · intro h
    unfold sortColumnOf
    rw [if_pos (show validSort.contains sb = true from List.elem_iff.mpr h)]
  · intro h
    unfold sortColumnOf
    rw [if_neg (show ¬validSort.contains sb = true from fun hc => h (List.elem_iff.mp hc))]
  · unfold orderOf
    split_ifs <;> simp
  · intro table sbQ soQ
    unfold listProducts
    dsimp only
    rw [if_neg (by decide)]

/-- C4 witness: allow-listed and fallback columns, and a lowercase `desc`. -/
theorem sort_allowlist_witness :
    ("unit_price" ∈ validSort) ∧ sortColumnOf "unit_price" = "unit_price" ∧
    ("dropcolumn" ∉ validSort) ∧ sortColumnOf "dropcolumn" = "stock_code" ∧
    orderOf "desc" = "DESC" ∧
    (listProducts none none none (some "dropcolumn") (some "desc") [] none).resp.status = 200 :=
  ⟨by decide, (sort_allowlist "unit_price" "x").1 (by decide), by decide,
    (sort_allowlist "dropcolumn" "x").2.1 (by decide),
    (sort_allowlist "x" "desc").2.2.1.mpr (by decide),
    (sort_allowlist "x" "x").2.2.2.2 [] (some "dropcolumn") (some "desc")⟩

/-! ## C7: pagination defaults and slicing -/

/-- C7: `page` defaults to 1 and `limit` to 10; for any page ≥ 1 and
limit ≥ 0 the rows returned are exactly the slice of the filtered and
sorted result starting at offset (page−1)·limit, and never more than
`limit` rows. -/
theorem pagination_slice (table : List Product) (page limit : Int)
    (s sb so : Option String) :
    (listProducts none none s sb so table none =
      listProducts (some 1) (some 10) s sb so table none) ∧
    (1 ≤ page → 0 ≤ limit →
      (listProducts (some page) (some limit) s sb so table none).resp.status = 200 ∧
      (listProducts (some page) (some limit) s sb so table none).resp.data =
        some (.rows (((listPipeline (s.getD "") (sb.getD "stock_code") (so.getD "ASC")
          table).drop ((page - 1) * limit).toNat).take limit.toNat)) ∧
      (∀ l, (listProducts (some page) (some limit) s sb so table none).resp.data =
          some (.rows l) → (l.length : Int) ≤ limit)) := by
  constructor
  · rfl
  · intro h1 h2
    have hoff : ¬(limit < 0 ∨ (page - 1) * limit < 0) := by
      push_neg
      exact ⟨h2, mul_nonneg (by omega) h2⟩
    refine ⟨?_, ?_, ?_⟩
    · unfold listProducts
      simp only [Option.getD_some]
      rw [if_neg hoff]
    · unfold listProducts
      simp only [Option.getD_some]
      rw [if_neg hoff]
    · intro l hl
      unfold listProducts at hl
      simp only [Option.getD_some] at hl
      rw [if_neg hoff] at hl
      simp only [Option.some_inj, RespData.rows.injEq] at hl
      have hlen : l.length ≤ limit.toNat := by
        rw [← hl]
        exact List.length_take_le _ _
      have hle : (l.length : Int) ≤ (limit.toNat : Int) := Int.ofNat_le.mpr hlen
      rwa [Int.toNat_of_nonneg h2] at hle

/-- C7 witness: page 2 with limit 1 on a two-row table. -/
theorem pagination_slice_witness :
    (1 : Int) ≤ 2 ∧ (0 : Int) ≤ 1 ∧
    (listProducts (some 2) (some 1) none none none [sampleRow, wildRow] none).resp.status = 200 :=
  ⟨by decide, by decide,
    ((pagination_slice [sampleRow, wildRow] 2 1 none none none).2 (by decide) (by decide)).1⟩

/-! ## C6: the search filter -/

theorem tryTails_iff (f : List Char → Bool) (s : List Char) :
    tryTails f s = true ↔ ∃ s1 s2, s = s1 ++ s2 ∧ f s2 = true := by
  induction s with
  | nil =>
    constructor
    · intro h
      exact ⟨[], [], rfl, h⟩
    · rintro ⟨s1, s2, he, hf⟩
      rw [eq_comm, List.append_eq_nil] at he
      rcases he with ⟨rfl, rfl⟩
      exact hf
  | cons c s ih =>
    show (f (c :: s) || tryTails f s) = true ↔ _
    rw [Bool.or_eq_true, ih]
    constructor
    · rintro (h | ⟨s1, s2, rfl, hf⟩)
      · exact ⟨[], c :: s, rfl, h⟩
      · exact ⟨c :: s1, s2, rfl, hf⟩
    · rintro ⟨s1, s2, he, hf⟩
      cases s1 with
      | nil =>
        left
        simp only [List.nil_append] at he
        rw [he]
        exact hf
      | cons d t1 =>
        injection he with h1 h2
        subst h1
        right
        exact ⟨t1, s2, h2, hf⟩

theorem likeMatch_pct (ps : List Char) (s : List Char) :
    likeMatch ('%' :: ps) s = tryTails (likeMatch ps) s := by
  unfold likeMatch
  rfl

theorem likeMatch_all (s : List Char) : likeMatch ['%'] s = true := by
  rw [likeMatch_pct]
  exact (tryTails_iff _ s).mpr ⟨s, [], (List.append_nil s).symm, rfl⟩

theorem likeMatch_lit_cons (c : Char) (ps s : List Char) (hw : isWild c = false) :
    likeMatch (c :: ps) s = true ↔ ∃ s2, s = c :: s2 ∧ likeMatch ps s2 = true := by
  rw [isWild, Bool.or_eq_false_iff, Bool.or_eq_false_iff] at hw
  obtain ⟨⟨h1, h2⟩, h3⟩ := hw
  cases s with
  | nil =>
    cases ps with
    | nil =>
      rw [likeMatch.eq_2]
      simp [h1, h2, h3]
    | cons q ps2 =>
      rw [likeMatch.eq_3]
      simp [h1, h2, h3]
  | cons d s2 =>
    cases ps with
    | nil =>
      rw [likeMatch.eq_4]
      simp only [h1, h2, h3, Bool.false_eq_true, if_false, Bool.and_eq_true, beq_iff_eq]
      constructor
      · rintro ⟨rfl, h⟩
        exact ⟨s2, rfl, h⟩
      · rintro ⟨s3, he, h⟩
        injection he with he1 he2
        subst he1
        subst he2
        exact ⟨rfl, h⟩
    | cons q ps2 =>
      rw [likeMatch.eq_5]
      simp only [h1, h2, h3, Bool.false_eq_true, if_false, Bool.and_eq_true, beq_iff_eq]
      constructor
      · rintro ⟨rfl, h⟩
        exact ⟨s2, rfl, h⟩
      · rintro ⟨s3, he, h⟩
        injection he with he1 he2
        subst he1
        subst he2
        exact ⟨rfl, h⟩

theorem likeMatch_lit_append (lit : List Char) : ∀ ps s : List Char,
    lit.all (fun c => !isWild c) = true →
    (likeMatch (lit ++ ps) s = true ↔ ∃ s2, s = lit ++ s2 ∧ likeMatch ps s2 = true) := by
  induction lit with
  | nil =>
    intro ps s _
    simp
  | cons c t ih =>
    intro ps s hw
    rw [List.all_cons, Bool.and_eq_true] at hw
    have hwc : isWild c = false := by simpa using hw.1
    rw [List.cons_append, likeMatch_lit_cons c (t ++ ps) s hwc]
    constructor
    · rintro ⟨s2, rfl, h⟩
      obtain ⟨s3, rfl, h3⟩ := (ih ps s2 hw.2).mp h
      exact ⟨s3, by rw [List.cons_append], h3⟩
    · rintro ⟨s2, he, h⟩
      refine ⟨t ++ s2, by rw [he, List.cons_append], ?_⟩
      exact (ih ps (t ++ s2) hw.2).mpr ⟨s2, rfl, h⟩

theorem lowCh_not_wild (c : Char) (h : isWild c = false) : isWild (lowCh c) = false := by
  unfold lowCh
  split_ifs with hc
  · have hv : (Char.ofNat (c.toNat + 32)).toNat = c.toNat + 32 :=
      toNat_ofNat_range (by omega) (by omega)
    have h1 : Char.ofNat (c.toNat + 32) ≠ '%' := by
      intro he
      have h4 := congrArg Char.toNat he
      rw [hv, (by decide : ('%').toNat = 37)] at h4
      omega
    have h2 : Char.ofNat (c.toNat + 32) ≠ '_' := by
      intro he
      have h4 := congrArg Char.toNat he
      rw [hv, (by decide : ('_').toNat = 95)] at h4
      omega
    have h3 : Char.ofNat (c.toNat + 32) ≠ '\x5c' := by
      intro he
      have h4 := congrArg Char.toNat he
      rw [hv, (by decide : ('\x5c').toNat = 92)] at h4
      omega
    simp [isWild, beq_eq_false_iff_ne, h1, h2, h3]
  · exact h

theorem ilike_infix (s t : String) (hw : s.data.all (fun c => !isWild c) = true) :
    ilike ("%" ++ s ++ "%") t = true ↔ substrCI s t := by
  unfold ilike substrCI
  have hpct : lowCh '%' = '%' := by decide
  have hpat : ("%" ++ s ++ "%").data.map lowCh = '%' :: (s.data.map lowCh ++ ['%']) := by
    rw [String.data_append, String.data_append]
    simp [List.map_append, hpct]
  rw [hpat, likeMatch_pct, tryTails_iff]
  have hwl : (s.data.map lowCh).all (fun c => !isWild c) = true := by
    rw [List.all_map]
    rw [List.all_eq_true] at hw ⊢
    intro x hx
    have := hw x hx
    simp only [Function.comp_apply, Bool.not_eq_true'] at this ⊢
    exact lowCh_not_wild x this
  constructor
  · rintro ⟨t1, t2, heq, hm⟩
    obtain ⟨t3, rfl, -⟩ := (likeMatch_lit_append (s.data.map lowCh) ['%'] t2 hwl).mp hm
    exact ⟨t1, t3, by rw [heq, List.append_assoc]⟩
  · rintro ⟨t1, t3, heq⟩
    refine ⟨t1, s.data.map lowCh ++ t3, ?_, ?_⟩
    · rw [← heq, List.append_assoc]
    · exact (likeMatch_lit_append (s.data.map lowCh) ['%'] _ hwl).mpr
        ⟨t3, rfl, likeMatch_all t3⟩

/-- C6 counterexample: with search string `a_b` the list route returns the
row with stock code `aXb` — the interpolated `_` acts as a single-character
wildcard in the ILIKE pattern — although `a_b` is not literally contained
(case-insensitively) in either column of that row. -/
theorem search_wildcard_leak :
    (listProducts none none (some "a_b") none none [wildRow] none).resp.data =
      some (.rows [wildRow]) ∧
    ¬ substrCI "a_b" "aXb" ∧ ¬ substrCI "a_b" "zz" :=
  ⟨by decide, by decide, by decide⟩

/-- C6 (amended): an empty or absent search applies no filter; a non-empty
search keeps exactly the rows whose `stock_code` or `description` matches
the ILIKE pattern `%search%`, in which `%`, `_` and the escape character
keep their wildcard meaning; when the search string contains none of those
characters this is exactly case-insensitive substring containment. -/
theorem search_filter (s : String) (table : List Product) :
    (filterRows "" table = table) ∧
    (s.data.all (fun c => !isWild c) = true →
      filterRows s table =
        table.filter (fun p => decide (substrCI s p.stock_code) ||
          decide (substrCI s p.description))) := by
  constructor
  · rfl
  · intro hw
    have key : ∀ t0 : String, ilike ("%" ++ s ++ "%") t0 = decide (substrCI s t0) := by
      intro t0
      have hi := ilike_infix s t0 hw
      by_cases hP : substrCI s t0
      · rw [decide_eq_true hP]
        exact hi.mpr hP
      · rw [decide_eq_false hP]
        exact Bool.eq_false_iff.mpr (fun hx => hP (hi.mp hx))
    unfold filterRows
    by_cases hs : s = ""
    · subst hs
      simp only [if_pos (by rfl : ("" == "") = true)]
      have hall : ∀ p : Product,
          (decide (substrCI "" p.stock_code) || decide (substrCI "" p.description)) = true := by
        intro p
        rw [decide_eq_true (show substrCI "" p.stock_code from List.nil_infix)]
        rfl
      rw [eq_comm]
      rw [List.filter_eq_self.mpr (fun p _ => hall p)]
    · rw [if_neg (show ¬(s == "") = true by simp [hs])]
      apply List.filter_congr
      intro p hp
      rw [key p.stock_code, key p.description]

/-- C6 witness: for the wildcard-free search string `ab` the filter is
literal case-insensitive substring containment. -/
theorem search_filter_witness :
    ("ab".data.all (fun c => !isWild c) = true) ∧
    filterRows "ab" [wildRow, sampleRow] =
      List.filter (fun p => decide (substrCI "ab" p.stock_code) ||
        decide (substrCI "ab" p.description)) [wildRow, sampleRow] :=
  ⟨by decide, (search_filter "ab" [wildRow, sampleRow]).2 (by decide)⟩

end OnlineRetail
